import Mathlib

/-!
# Verification of the glidemq-hono queue registry and event streaming core

A shallow embedding, in Lean 4, of the core of the `@glidemq/hono` package:

* `QueueRegistryImpl` (src/registry.ts): lazy, memoized creation of one
  queue/worker pair per configured queue name, closed-state semantics, and
  coordinated shutdown (`closeAll`).
* The subscription multiplexer of src/events.ts (`acquireQueueEvents` /
  `releaseQueueEvents`): a process-wide map from queue name to a shared
  `QueueEvents` source with a reference count.
* The SSE stream sessions of src/events.ts (`createLiveSSE` /
  `createTestingSSE`): per-session frame emission with a session-local
  integer id counter, heartbeat loop, and structured cleanup.

JavaScript `Map`s / plain objects keyed by strings are embedded as
association lists in insertion order (new entries are appended at the end,
matching JS `Map` iteration order).  Object identity ("reference equality")
of handles and event sources is embedded by allocating a fresh numeric id
from a per-state counter at each construction, so two values are the same
object iff they are equal as Lean values.  Opaque payloads that the core
never inspects (connection options) are embedded as `Nat`: only their
identity matters.
-/

/-- Association-list lookup keyed by strings, embedding `Map.get` /
JS object property access. -/
def lookupA {α : Type} (k : String) : List (String × α) → Option α
  | [] => none
  | (k', v) :: rest => if k' = k then some v else lookupA k rest

theorem lookupA_append {α : Type} (k : String) (l l' : List (String × α)) :
    lookupA k (l ++ l') = ((lookupA k l).rec (lookupA k l') (fun v => some v)) := by
  induction l with
  | nil => rfl
  | cons hd tl ih =>
    cases hd with
    | mk k' v =>
      by_cases h : k' = k
      · simp [lookupA, h]
      · simp [lookupA, h, ih]

theorem lookupA_append_of_some {α : Type} {k : String} {l : List (String × α)} {v : α}
    (h : lookupA k l = some v) (l' : List (String × α)) :
    lookupA k (l ++ l') = some v := by
  rw [lookupA_append, h]

theorem lookupA_append_of_none {α : Type} {k : String} {l : List (String × α)}
    (h : lookupA k l = none) (l' : List (String × α)) :
    lookupA k (l ++ l') = lookupA k l' := by
  rw [lookupA_append, h]

theorem lookupA_singleton_ne {α : Type} {k k' : String} (h : k' ≠ k) (v : α) :
    lookupA k [(k', v)] = none := by
  simp [lookupA, h]

theorem lookupA_singleton_self {α : Type} (k : String) (v : α) :
    lookupA k [(k, v)] = some v := by
  simp [lookupA]

/-- Association-list update of the entry at key `k`, embedding in-place
mutation of the object a `Map.get(k)` returned. -/
def updateA {α : Type} (k : String) (g : α → α) : List (String × α) → List (String × α)
  | [] => []
  | (k', v) :: rest => if k' = k then (k', g v) :: rest else (k', v) :: updateA k g rest

/-- Association-list removal of the entry at key `k`, embedding
`Map.delete(k)`. -/
def eraseA {α : Type} (k : String) : List (String × α) → List (String × α)
  | [] => []
  | (k', v) :: rest => if k' = k then eraseA k rest else (k', v) :: eraseA k rest

/-! ## Polling-mode stream session (`createTestingSSE`, src/events.ts)

In testing mode the registry's `TestQueue` has no `QueueEvents`, so the
session polls `queue.getJobCounts()` on a 1-second interval and emits
synthetic `counts` delta frames by diffing against the previously held
counts.  The counts object has one integer per queue state
(waiting, active, completed, failed, delayed); we embed it as a record
and the `for (const [state, count] of Object.entries(counts))` loop as a
walk over the five `(state, prev, count)` triples in the key order of the
literal `{ waiting: 0, active: 0, completed: 0, failed: 0, delayed: 0 }`.

The queue engine itself is external, so a session's environment is a list
of poll outcomes: `some c` is a successful `getJobCounts` read returning
`c`, `none` is a read that threw (the `catch` breaks the loop).  Client
abort between ticks simply truncates the list: the `running` flag is
checked before and after each read, so inputs past an abort are never
processed. -/

/-- Aggregate job counts, one integer per queue state. -/
structure JobCounts where
  waiting : Nat
  active : Nat
  completed : Nat
  failed : Nat
  delayed : Nat
deriving DecidableEq, Repr

/-- The baseline the session starts from:
`let lastCounts = { waiting: 0, active: 0, completed: 0, failed: 0, delayed: 0 }`. -/
def JobCounts.zero : JobCounts := ⟨0, 0, 0, 0, 0⟩

/-- One `counts` SSE frame: `{ queue, state, count, prev }` plus the
session-local id the frame was written with (`id: String(eventId++)`;
we record the numeral, its decimal rendering being the wire form). -/
structure CountsFrame where
  queue : String
  state : String
  count : Nat
  prev : Nat
  id : Nat
deriving DecidableEq, Repr

/-- The diffing loop body over `Object.entries(counts)`: each triple is
`(state, prev, count)`; a frame is written iff `count !== prev`, and the
session id counter is threaded through (`eventId++` per written frame). -/
def diffList (queue : String) : List (String × Nat × Nat) → Nat → List CountsFrame × Nat
  | [], eid => ([], eid)
  | (st, pv, cu) :: rest, eid =>
    if cu ≠ pv then
      let r := diffList queue rest (eid + 1)
      (⟨queue, st, cu, pv, eid⟩ :: r.1, r.2)
    else diffList queue rest eid

/-- The five `(state, prev, count)` triples of one poll tick, in the key
order of the counts literal. -/
def stateEntries (prev curr : JobCounts) : List (String × Nat × Nat) :=
  [("waiting", prev.waiting, curr.waiting),
   ("active", prev.active, curr.active),
   ("completed", prev.completed, curr.completed),
   ("failed", prev.failed, curr.failed),
   ("delayed", prev.delayed, curr.delayed)]

/-- One poll tick: emit a frame for every state whose count differs from
the held baseline, starting at id `eid`; returns the frames and the next
free id. -/
def diffFrames (queue : String) (prev curr : JobCounts) (eid : Nat) :
    List CountsFrame × Nat :=
  diffList queue (stateEntries prev curr) eid

/-- The `while (running)` poll loop of `createTestingSSE`: read counts
(`none` = the read threw, breaking the loop), diff against the held
baseline, then replace the baseline wholesale (`lastCounts = counts`)
and continue. -/
def pollLoop (queue : String) (lastCounts : JobCounts) (eid : Nat) :
    List (Option JobCounts) → List CountsFrame
  | [] => []
  | none :: _ => []
  | some c :: rest =>
    let r := diffFrames queue lastCounts c eid
    r.1 ++ pollLoop queue c r.2 rest

/-- `createTestingSSE` for queue `queue` under poll environment `reads`:
the baseline starts at the all-zero literal and the id counter at 0. -/
def runTestingSSE (queue : String) (reads : List (Option JobCounts)) :
    List CountsFrame :=
  pollLoop queue JobCounts.zero 0 reads

/-! ## Queue registry (`QueueRegistryImpl`, src/registry.ts)

`get` checks, in source order: the `closed` flag, the `managed` memo map,
then the `queues` config map; a miss on the last throws.  Creation
allocates a queue handle and, iff the definition carries a processor, a
worker handle; both live (`Queue`/`Worker`) and testing
(`TestQueue`/`TestWorker`) factories produce one queue and an optional
worker, which is all the registry-level claims observe, so a handle is
embedded as its fresh numeric identity plus the optional worker identity.
`closeAll` flips `closed`, issues `worker.close()` (when present) and
`queue.close()` for every memoized entry, awaits them all via
`Promise.allSettled` (whose results it discards), and clears the map. -/

/-- One entry of the `queues` config object.  `processor` records whether
a processor function was supplied (its behavior lives in the external
engine); `concurrency` is passed through to the worker factory. -/
structure QueueConfig where
  processor : Bool
  concurrency : Option Nat
deriving DecidableEq, Repr

/-- The config given to `new QueueRegistryImpl(config)`.  `connection` is
an opaque payload (`Nat`); `queues` is a string-keyed object in insertion
order. -/
structure GlideMQConfig where
  connection : Option Nat
  queues : List (String × QueueConfig)
  keyPrefix : Option String
  testing : Bool
deriving DecidableEq, Repr

/-- A memoized `ManagedQueue` entry `{ queue, worker }`.  `queueId` and
`workerId` are the identities of the underlying handles; `worker` is
`null` iff the definition had no processor. -/
structure ManagedQueue where
  queueId : Nat
  workerId : Option Nat
deriving DecidableEq, Repr

/-- The stable error identity of the exceptions `get` throws:
`` `GlideMQ: registry is closed` `` and
`` `GlideMQ: queue "name" is not configured` ``. -/
inductive RegError where
  | registryClosed
  | queueNotConfigured (name : String)
deriving DecidableEq, Repr

/-- The mutable fields of `QueueRegistryImpl`, plus the bookkeeping that
embeds object identity and observable side effects: `nextHandle` is the
fresh-identity source, `creations` logs one entry per factory invocation
(the name it was invoked for). -/
structure RegistryState where
  config : GlideMQConfig
  managed : List (String × ManagedQueue)
  closed : Bool
  nextHandle : Nat
  creations : List String
deriving DecidableEq, Repr

/-- A freshly constructed registry (the constructor's only state effect;
its connection-presence check is `RegistryState.construct` below). -/
def RegistryState.init (cfg : GlideMQConfig) : RegistryState :=
  { config := cfg, managed := [], closed := false, nextHandle := 0, creations := [] }

/-- `new QueueRegistryImpl(config)`: throws when testing mode is off and
no connection was supplied, otherwise yields the initial state. -/
def RegistryState.construct (cfg : GlideMQConfig) : Option RegistryState :=
  if ¬cfg.testing ∧ cfg.connection = none then none
  else some (RegistryState.init cfg)

/-- `createEntry` / `createTestEntry`: one queue handle, plus a worker
handle iff the config carries a processor. -/
def RegistryState.createHandles (s : RegistryState) (qc : QueueConfig) :
    ManagedQueue × Nat :=
  if qc.processor then
    (⟨s.nextHandle, some (s.nextHandle + 1)⟩, s.nextHandle + 2)
  else
    (⟨s.nextHandle, none⟩, s.nextHandle + 1)

/-- `QueueRegistryImpl.get(name)`. -/
def RegistryState.get (s : RegistryState) (name : String) :
    Except RegError ManagedQueue × RegistryState :=
  if s.closed then
    (.error .registryClosed, s)
  else
    match lookupA name s.managed with
    | some existing => (.ok existing, s)
    | none =>
      match lookupA name s.config.queues with
      | none => (.error (.queueNotConfigured name), s)
      | some qc =>
        let r := s.createHandles qc
        (.ok r.1,
         { s with
             managed := s.managed ++ [(name, r.1)],
             nextHandle := r.2,
             creations := s.creations ++ [name] })

/-- The close operations `closeAll` initiates for one managed entry:
`worker.close()` when a worker exists, then `queue.close()`. -/
def ManagedQueue.closeOps (m : ManagedQueue) : List Nat :=
  (match m.workerId with
   | some w => [w]
   | none => []) ++ [m.queueId]

/-- `QueueRegistryImpl.closeAll()`.  `fails` is the set of handle ids
whose `close()` rejects; `Promise.allSettled` collects every outcome and
the method discards them, so the returned triple is the new state, the
close operations issued (by handle id, in map order), and the failures
that were collected (and swallowed).  The return type is not fallible:
`closeAll` never throws. -/
def RegistryState.closeAll (s : RegistryState) (fails : List Nat) :
    RegistryState × List Nat × List Nat :=
  if s.closed then (s, [], [])
  else
    let ops := (s.managed.map (fun e => e.2.closeOps)).flatten
    ({ s with closed := true, managed := [] },
     ops,
     ops.filter (· ∈ fails))

/-- One registry operation, for quantifying over call sequences. -/
inductive RegOp where
  | get (name : String)
  | closeAll (fails : List Nat)
deriving DecidableEq, Repr

/-- State transition of one registry operation. -/
def RegistryState.step (s : RegistryState) : RegOp → RegistryState
  | .get name => (s.get name).2
  | .closeAll fails => (s.closeAll fails).1

/-- Run a sequence of registry operations. -/
def RegistryState.run (s : RegistryState) : List RegOp → RegistryState
  | [] => s
  | op :: rest => (s.step op).run rest

/-- Run a sequence of bare `get` calls. -/
def RegistryState.runGets (s : RegistryState) (names : List String) : RegistryState :=
  s.run (names.map .get)

/-! ## Subscription multiplexer (`acquireQueueEvents` / `releaseQueueEvents`)

A module-level `Map<string, { queueEvents, refCount }>`.  `acquire` bumps
and returns the existing source when an entry exists (its `connectionOpts`
and `prefix` arguments are only read when constructing a new source);
otherwise it constructs a `QueueEvents` from the given options and stores
it with `refCount = 1`.  `release` on a missing name is a no-op; otherwise
it decrements and, when the result is `<= 0`, closes the source
(best-effort, rejection swallowed) and deletes the entry.  `refCount` is a
JS number that the code can in principle drive below zero, so it is
embedded as `Int`. -/

/-- The shared `QueueEvents` source: its identity plus the construction
arguments `new QueueEvents(name, { connection, prefix })`. -/
structure QueueEvents where
  sourceId : Nat
  name : String
  connection : Nat
  keyPrefix : Option String
deriving DecidableEq, Repr

/-- One multiplexer entry: `{ queueEvents, refCount }`. -/
structure EventSubscription where
  queueEvents : QueueEvents
  refCount : Int
deriving DecidableEq, Repr

/-- The module-level `subscriptions` map plus a fresh-identity counter and
the log of `close()` calls issued on sources (by source identity). -/
structure MuxState where
  subs : List (String × EventSubscription)
  nextSource : Nat
  closes : List Nat
deriving DecidableEq, Repr

/-- The state of the `subscriptions` map at module load. -/
def MuxState.init : MuxState := { subs := [], nextSource := 0, closes := [] }

/-- `acquireQueueEvents(name, connectionOpts, prefix)`. -/
def MuxState.acquire (s : MuxState) (name : String) (connectionOpts : Nat)
    (keyPrefix : Option String) : QueueEvents × MuxState :=
  match lookupA name s.subs with
  | some existing =>
    (existing.queueEvents,
     { s with
         subs := updateA name (fun sub => { sub with refCount := sub.refCount + 1 }) s.subs })
  | none =>
    let qe : QueueEvents :=
      { sourceId := s.nextSource, name := name,
        connection := connectionOpts, keyPrefix := keyPrefix }
    (qe,
     { s with
         subs := s.subs ++ [(name, { queueEvents := qe, refCount := 1 })],
         nextSource := s.nextSource + 1 })

/-- `releaseQueueEvents(name)`. -/
def MuxState.release (s : MuxState) (name : String) : MuxState :=
  match lookupA name s.subs with
  | none => s
  | some sub =>
    if sub.refCount - 1 ≤ 0 then
      { s with
          subs := eraseA name s.subs,
          closes := s.closes ++ [sub.queueEvents.sourceId] }
    else
      { s with
          subs := updateA name (fun e => { e with refCount := sub.refCount - 1 }) s.subs }

/-- One multiplexer operation, for quantifying over call sequences. -/
inductive MuxOp where
  | acquire (name : String) (connectionOpts : Nat) (keyPrefix : Option String)
  | release (name : String)
deriving DecidableEq, Repr

/-- State transition of one multiplexer operation. -/
def MuxState.step (s : MuxState) : MuxOp → MuxState
  | .acquire name c p => (s.acquire name c p).2
  | .release name => s.release name

/-- Run a sequence of multiplexer operations. -/
def MuxState.run (s : MuxState) : List MuxOp → MuxState
  | [] => s
  | op :: rest => (s.step op).run rest

/-! ## Live-mode stream session (`createLiveSSE`, src/events.ts)

The session acquires the shared source, attaches one forwarding listener
per event category in `eventTypes`, then runs the heartbeat `while` loop;
the `finally` block removes every attached listener and releases the
multiplexer reference on every way out of the loop.  A frame is one
`stream.writeSSE` invocation; its id is `String(eventId++)` where
`eventId` is the session-local counter shared by the forwarding listeners
and the heartbeat loop (we record the numeral, its decimal rendering
being the wire form).

On the single-threaded cooperative scheduler the session's life is a
sequence of happenings: an engine event arriving (its listener writes one
frame, write rejections swallowed by `.catch`), a heartbeat tick whose
write succeeds or fails (a failure `break`s the loop), the client abort
(`onAbort` clears `running`: the listeners stop forwarding and the loop
exits at its next check, so later inputs produce nothing), or an error
thrown inside the loop body (propagates out through the `finally`). -/

/-- The fixed listener categories of `createLiveSSE`. -/
def eventTypes : List String := ["completed", "failed", "progress", "stalled", "active", "waiting"]

/-- One happening observed by a live session, in scheduler order. -/
inductive LiveInput where
  | engine (event : String)
  | heartbeat (writeOk : Bool)
  | abort
  | thrown
deriving DecidableEq, Repr

/-- How the heartbeat loop was exited. -/
inductive ExitCause where
  | ended
  | writeFailed
  | aborted
  | threw
deriving DecidableEq, Repr

/-- An SSE frame as the session writes it: the event category and the
session-local id. -/
structure Frame where
  event : String
  id : Nat
deriving DecidableEq, Repr

/-- The body of the live session between attach and `finally`: each input
either writes one frame with the next id or terminates the loop. -/
def liveLoop (eid : Nat) : List LiveInput → List Frame × ExitCause
  | [] => ([], .ended)
  | .engine ev :: rest =>
    let r := liveLoop (eid + 1) rest
    (⟨ev, eid⟩ :: r.1, r.2)
  | .heartbeat true :: rest =>
    let r := liveLoop (eid + 1) rest
    (⟨"heartbeat", eid⟩ :: r.1, r.2)
  | .heartbeat false :: _ => ([⟨"heartbeat", eid⟩], .writeFailed)
  | .abort :: _ => ([], .aborted)
  | .thrown :: _ => ([], .threw)

/-- What one live session did, observably. -/
structure SessionLog where
  attached : List String
  detached : List String
  frames : List Frame
  exitCause : ExitCause
deriving DecidableEq, Repr

/-- `createLiveSSE` against multiplexer state `mux`: acquire the shared
source, attach a listener per category, run the loop with `eventId = 0`,
then — in `finally`, on every exit path including `thrown` — remove each
attached listener and release the multiplexer reference exactly once. -/
def runLiveSSE (mux : MuxState) (name : String) (connection : Nat)
    (keyPrefix : Option String) (inputs : List LiveInput) :
    SessionLog × MuxState :=
  let acq := mux.acquire name connection keyPrefix
  let r := liveLoop 0 inputs
  ({ attached := eventTypes, detached := eventTypes,
     frames := r.1, exitCause := r.2 },
   acq.2.release name)

/-! ## Association-list facts used by the proofs -/

theorem lookupA_eraseA {α : Type} (k : String) (l : List (String × α)) :
    lookupA k (eraseA k l) = none := by
  induction l with
  | nil => rfl
  | cons hd tl ih =>
    obtain ⟨k', v⟩ := hd
    by_cases h : k' = k
    · simpa [eraseA, h] using ih
    · simpa [eraseA, h, lookupA] using ih

theorem lookupA_updateA {α : Type} (k : String) (g : α → α) (l : List (String × α)) :
    lookupA k (updateA k g l) = Option.map g (lookupA k l) := by
  induction l with
  | nil => rfl
  | cons hd tl ih =>
    obtain ⟨k', v⟩ := hd
    by_cases h : k' = k
    · simp [updateA, lookupA, h]
    · simp [updateA, lookupA, h, ih]

theorem mem_eraseA {α : Type} {k : String} {l : List (String × α)} :
    ∀ e ∈ eraseA k l, e ∈ l := by
  induction l with
  | nil => intro e he; exact absurd he (by simp [eraseA])
  | cons hd tl ih =>
    intro e he
    obtain ⟨k', v⟩ := hd
    by_cases h : k' = k
    · simp only [eraseA, if_pos h] at he
      exact List.mem_cons_of_mem _ (ih e he)
    · simp only [eraseA, if_neg h, List.mem_cons] at he
      rcases he with he | he
      · exact he ▸ List.mem_cons_self _ _
      · exact List.mem_cons_of_mem _ (ih e he)

theorem mem_updateA {α : Type} {k : String} {g : α → α} {l : List (String × α)}
    {P : α → Prop} (hl : ∀ e ∈ l, P e.2) (hg : ∀ v, P v → P (g v)) :
    ∀ e ∈ updateA k g l, P e.2 := by
  induction l with
  | nil => intro e he; exact absurd he (by simp [updateA])
  | cons hd tl ih =>
    intro e he
    obtain ⟨k', v⟩ := hd
    by_cases h : k' = k
    · simp only [updateA, if_pos h, List.mem_cons] at he
      rcases he with he | he
      · subst he
        exact hg v (hl (k', v) (List.mem_cons_self _ _))
      · exact hl e (List.mem_cons_of_mem _ he)
    · simp only [updateA, if_neg h, List.mem_cons] at he
      rcases he with he | he
      · subst he
        exact hl (k', v) (List.mem_cons_self _ _)
      · exact ih (fun e' he' => hl e' (List.mem_cons_of_mem _ he')) e he

/-! ## Registry lemmas -/

theorem RegistryState.get_of_closed {s : RegistryState} (h : s.closed = true)
    (name : String) : s.get name = (.error .registryClosed, s) := by
  simp [RegistryState.get, h]

theorem RegistryState.get_snd_closed (s : RegistryState) (name : String) :
    ((s.get name).2).closed = s.closed := by
  unfold RegistryState.get
  split
  · rfl
  · cases hm : lookupA name s.managed with
    | some m => simp [hm]
    | none =>
      cases hq : lookupA name s.config.queues with
      | none => simp [hm, hq]
      | some qc => simp [hm, hq]

theorem RegistryState.get_snd_config (s : RegistryState) (name : String) :
    ((s.get name).2).config = s.config := by
  unfold RegistryState.get
  split
  · rfl
  · cases hm : lookupA name s.managed with
    | some m => simp [hm]
    | none =>
      cases hq : lookupA name s.config.queues with
      | none => simp [hm, hq]
      | some qc => simp [hm, hq]

theorem RegistryState.closeAll_fst_closed (s : RegistryState) (fails : List Nat) :
    ((s.closeAll fails).1).closed = true := by
  unfold RegistryState.closeAll
  split
  · next h => exact h
  · rfl

theorem RegistryState.closeAll_fst_config (s : RegistryState) (fails : List Nat) :
    ((s.closeAll fails).1).config = s.config := by
  unfold RegistryState.closeAll
  split <;> rfl

theorem RegistryState.step_closed_of_closed {s : RegistryState} (h : s.closed = true)
    (op : RegOp) : (s.step op).closed = true := by
  cases op with
  | get name => rw [RegistryState.step, RegistryState.get_snd_closed]; exact h
  | closeAll fails => exact s.closeAll_fst_closed fails

theorem RegistryState.run_closed_of_closed {s : RegistryState} (h : s.closed = true) :
    ∀ ops : List RegOp, (s.run ops).closed = true := by
  intro ops
  induction ops generalizing s with
  | nil => exact h
  | cons op rest ih =>
    exact ih (RegistryState.step_closed_of_closed h op)

theorem RegistryState.step_config (s : RegistryState) (op : RegOp) :
    (s.step op).config = s.config := by
  cases op with
  | get name => exact s.get_snd_config name
  | closeAll fails => exact s.closeAll_fst_config fails

theorem RegistryState.run_config (s : RegistryState) :
    ∀ ops : List RegOp, (s.run ops).config = s.config := by
  intro ops
  induction ops generalizing s with
  | nil => rfl
  | cons op rest ih =>
    rw [RegistryState.run, ih, RegistryState.step_config]

theorem RegistryState.closeAll_of_closed {s : RegistryState} (h : s.closed = true)
    (fails : List Nat) : s.closeAll fails = (s, [], []) := by
  unfold RegistryState.closeAll
  rw [if_pos h]

theorem RegistryState.closeAll_fst_of_open {s : RegistryState} (h : s.closed = false)
    (fails : List Nat) :
    (s.closeAll fails).1 = { s with closed := true, managed := [] } := by
  unfold RegistryState.closeAll
  rw [if_neg (by rw [h]; exact Bool.false_ne_true)]

theorem RegistryState.step_managed_sub {s : RegistryState} (op : RegOp)
    (h : ∀ k, lookupA k s.config.queues = none → lookupA k s.managed = none) :
    ∀ k, lookupA k (s.step op).config.queues = none →
      lookupA k (s.step op).managed = none := by
  have hcfg : (s.step op).config = s.config := s.step_config op
  cases op with
  | closeAll fails =>
    intro k hk
    rw [hcfg] at hk
    simp only [RegistryState.step]
    by_cases hc : s.closed = true
    · rw [RegistryState.closeAll_of_closed hc]
      exact h k hk
    · rw [RegistryState.closeAll_fst_of_open (Bool.not_eq_true _ ▸ hc)]
      rfl
  | get name =>
    intro k hk
    rw [hcfg] at hk
    simp only [RegistryState.step]
    unfold RegistryState.get
    split
    · exact h k hk
    · cases hm : lookupA name s.managed with
      | some m => simp only [hm]; exact h k hk
      | none =>
        cases hq : lookupA name s.config.queues with
        | none => simp only [hm, hq]; exact h k hk
        | some qc =>
          simp only [hm, hq]
          have hne : name ≠ k := by
            intro he
            subst he
            rw [hk] at hq
            exact Option.noConfusion hq
          rw [lookupA_append_of_none (h k hk), lookupA_singleton_ne hne]

theorem RegistryState.run_managed_sub {s : RegistryState} (ops : List RegOp)
    (h : ∀ k, lookupA k s.config.queues = none → lookupA k s.managed = none) :
    ∀ k, lookupA k (s.run ops).config.queues = none →
      lookupA k (s.run ops).managed = none := by
  induction ops generalizing s with
  | nil => exact h
  | cons op rest ih => exact ih (s.step_managed_sub op h)

theorem RegistryState.step_closed_managed {s : RegistryState} (op : RegOp)
    (h : s.closed = true → s.managed = []) :
    (s.step op).closed = true → (s.step op).managed = [] := by
  cases op with
  | closeAll fails =>
    intro _
    simp only [RegistryState.step]
    by_cases hc : s.closed = true
    · rw [RegistryState.closeAll_of_closed hc]
      exact h hc
    · rw [RegistryState.closeAll_fst_of_open (Bool.not_eq_true _ ▸ hc)]
  | get name =>
    intro hc
    rw [RegistryState.step, RegistryState.get_snd_closed] at hc
    rw [RegistryState.step, RegistryState.get_of_closed hc]
    exact h hc

theorem RegistryState.run_closed_managed {s : RegistryState} (ops : List RegOp)
    (h : s.closed = true → s.managed = []) :
    (s.run ops).closed = true → (s.run ops).managed = [] := by
  induction ops generalizing s with
  | nil => exact h
  | cons op rest ih => exact ih (s.step_closed_managed op h)

/-- C3: once `closeAll` has completed, the `closed` flag stays `true`
across every further sequence of registry operations, and every
subsequent `get`, for every name, fails with the registry-closed error. -/
theorem registry_closed_is_absorbing (s : RegistryState) (fails : List Nat)
    (ops : List RegOp) (name : String) :
    (((s.closeAll fails).1.run ops).closed = true) ∧
    ((((s.closeAll fails).1.run ops).get name).1 = .error .registryClosed) := by
  have hc : (((s.closeAll fails).1.run ops).closed = true) :=
    RegistryState.run_closed_of_closed (s.closeAll_fst_closed fails) ops
  exact ⟨hc, by rw [RegistryState.get_of_closed hc]⟩

/-- C4 counterexample: on a registry whose `closeAll` has run, `get` on
the unconfigured name `"billing"` throws the registry-closed error, not
the queue-not-configured error the claim requires in every state. -/
theorem get_unconfigured_when_closed_cex :
    (((((RegistryState.init
          ⟨none, [("emails", ⟨false, none⟩)], none, true⟩).closeAll []).1.get
            "billing").1 = .error .registryClosed) ∧
    ¬ ((((RegistryState.init
          ⟨none, [("emails", ⟨false, none⟩)], none, true⟩).closeAll []).1.get
            "billing").1 = .error (.queueNotConfigured "billing"))) := by
  constructor
  · rfl
  · intro h
    exact RegError.noConfusion (Except.error.inj h)

/-- C4 (amended): on every reachable registry state, `get` on a name
outside the definitions map fails with the queue-not-configured error
whenever the registry is not closed; once it is closed, the closed check
comes first and the call fails with the registry-closed error instead. -/
theorem get_unconfigured_error_order (cfg : GlideMQConfig) (ops : List RegOp)
    (name : String) (h : lookupA name cfg.queues = none) :
    ((((RegistryState.init cfg).run ops).closed = false →
      ((((RegistryState.init cfg).run ops).get name).1 =
        .error (.queueNotConfigured name))) ∧
     (((RegistryState.init cfg).run ops).closed = true →
      ((((RegistryState.init cfg).run ops).get name).1 = .error .registryClosed))) := by
  constructor
  · intro hc
    have hq : lookupA name ((RegistryState.init cfg).run ops).config.queues = none := by
      rw [RegistryState.run_config]; exact h
    have hm : lookupA name ((RegistryState.init cfg).run ops).managed = none :=
      RegistryState.run_managed_sub (s := RegistryState.init cfg) ops
        (fun k _ => rfl) name hq
    unfold RegistryState.get
    rw [hc]
    simp only [Bool.false_eq_true, if_false, hm, hq]
  · intro hc
    rw [RegistryState.get_of_closed hc]

/-- Witness for the amended C4 at a concrete registry. -/
theorem get_unconfigured_error_order_witness :
    (lookupA "billing" ([("emails", (⟨false, none⟩ : QueueConfig))]) = none) ∧
    ((((RegistryState.init
          ⟨none, [("emails", ⟨false, none⟩)], none, true⟩).run
            [RegOp.get "emails"]).closed = false →
      ((((RegistryState.init
          ⟨none, [("emails", ⟨false, none⟩)], none, true⟩).run
            [RegOp.get "emails"]).get "billing").1 =
        .error (.queueNotConfigured "billing"))) ∧
     (((RegistryState.init
          ⟨none, [("emails", ⟨false, none⟩)], none, true⟩).run
            [RegOp.get "emails"]).closed = true →
      ((((RegistryState.init
          ⟨none, [("emails", ⟨false, none⟩)], none, true⟩).run
            [RegOp.get "emails"]).get "billing").1 = .error .registryClosed))) :=
  ⟨by decide,
   get_unconfigured_error_order ⟨none, [("emails", ⟨false, none⟩)], none, true⟩
     [RegOp.get "emails"] "billing" (by decide)⟩

/-- C5: `closeAll` on any reachable registry state flips `closed` to
`true` and leaves the memo map empty; it is total (the return type is not
fallible) and its resulting state and issued close operations do not
depend on which underlying close operations fail; a second `closeAll`
returns at once, issuing no further close operations. -/
theorem closeAll_idempotent_total (cfg : GlideMQConfig) (ops : List RegOp)
    (fails fails' : List Nat) :
    ((((RegistryState.init cfg).run ops).closeAll fails).1.closed = true) ∧
    ((((RegistryState.init cfg).run ops).closeAll fails).1.managed = []) ∧
    (((((RegistryState.init cfg).run ops).closeAll fails).1.closeAll fails') =
      (((((RegistryState.init cfg).run ops).closeAll fails).1), [], [])) ∧
    ((((RegistryState.init cfg).run ops).closeAll fails').1 =
      (((RegistryState.init cfg).run ops).closeAll fails).1) ∧
    ((((RegistryState.init cfg).run ops).closeAll fails').2.1 =
      (((RegistryState.init cfg).run ops).closeAll fails).2.1) := by
  refine ⟨RegistryState.closeAll_fst_closed _ fails, ?_, ?_, ?_, ?_⟩
  · by_cases hc : ((RegistryState.init cfg).run ops).closed = true
    · rw [RegistryState.closeAll_of_closed hc]
      exact RegistryState.run_closed_managed (s := RegistryState.init cfg) ops
        (fun h => rfl) hc
    · rw [RegistryState.closeAll_fst_of_open (Bool.not_eq_true _ ▸ hc)]
  · exact RegistryState.closeAll_of_closed
      (RegistryState.closeAll_fst_closed _ fails) fails'
  · by_cases hc : ((RegistryState.init cfg).run ops).closed = true
    · rw [RegistryState.closeAll_of_closed hc, RegistryState.closeAll_of_closed hc]
    · rw [RegistryState.closeAll_fst_of_open (Bool.not_eq_true _ ▸ hc),
        RegistryState.closeAll_fst_of_open (Bool.not_eq_true _ ▸ hc)]
  · by_cases hc : ((RegistryState.init cfg).run ops).closed = true
    · rw [RegistryState.closeAll_of_closed hc, RegistryState.closeAll_of_closed hc]
    · unfold RegistryState.closeAll
      rw [if_neg hc, if_neg hc]

theorem RegistryState.runGets_cons (s : RegistryState) (x : String) (rest : List String) :
    s.runGets (x :: rest) = ((s.get x).2).runGets rest := rfl

theorem RegistryState.runGets_closed (s : RegistryState) (l : List String) :
    (s.runGets l).closed = s.closed := by
  induction l generalizing s with
  | nil => rfl
  | cons x rest ih =>
    rw [RegistryState.runGets_cons, ih, RegistryState.get_snd_closed]

theorem RegistryState.get_managed_stable {s : RegistryState} {k : String}
    {m : ManagedQueue} (h : lookupA k s.managed = some m) (name : String) :
    lookupA k ((s.get name).2).managed = some m := by
  unfold RegistryState.get
  split
  · exact h
  · cases hm : lookupA name s.managed with
    | some m' => exact h
    | none =>
      cases hq : lookupA name s.config.queues with
      | none => exact h
      | some qc =>
        simp only
        exact lookupA_append_of_some h _

theorem RegistryState.runGets_managed_stable {s : RegistryState} {k : String}
    {m : ManagedQueue} (h : lookupA k s.managed = some m) (l : List String) :
    lookupA k ((s.runGets l)).managed = some m := by
  induction l generalizing s with
  | nil => exact h
  | cons x rest ih =>
    rw [RegistryState.runGets_cons]
    exact ih (RegistryState.get_managed_stable h x)

theorem RegistryState.get_of_memo {s : RegistryState} {n : String} {m : ManagedQueue}
    (hc : s.closed = false) (hm : lookupA n s.managed = some m) :
    s.get n = (.ok m, s) := by
  unfold RegistryState.get
  rw [hc]
  simp [hm]

theorem RegistryState.get_of_configured {s : RegistryState} {n : String}
    {qc : QueueConfig} (hc : s.closed = false)
    (hq : lookupA n s.config.queues = some qc) :
    ∃ m, (s.get n).1 = .ok m ∧ lookupA n ((s.get n).2).managed = some m := by
  cases hm : lookupA n s.managed with
  | some m =>
    refine ⟨m, ?_, ?_⟩
    · rw [RegistryState.get_of_memo hc hm]
    · rw [RegistryState.get_of_memo hc hm]
      exact hm
  | none =>
    refine ⟨(s.createHandles qc).1, ?_, ?_⟩
    · unfold RegistryState.get
      rw [hc]
      simp [hm, hq]
    · unfold RegistryState.get
      rw [hc]
      simp only [Bool.false_eq_true, if_false, hm, hq]
      rw [lookupA_append_of_none hm, lookupA_singleton_self]

theorem RegistryState.step_creations_inv {s : RegistryState} (n : String) (op : RegOp)
    (h1 : s.creations.count n ≤ 1)
    (h2 : s.creations.count n = 1 →
      ((lookupA n s.managed).isSome = true ∨ s.closed = true)) :
    (s.step op).creations.count n ≤ 1 ∧
    ((s.step op).creations.count n = 1 →
      ((lookupA n (s.step op).managed).isSome = true ∨ (s.step op).closed = true)) := by
  cases op with
  | closeAll fails =>
    simp only [RegistryState.step]
    by_cases hc : s.closed = true
    · rw [RegistryState.closeAll_of_closed hc]
      exact ⟨h1, h2⟩
    · rw [RegistryState.closeAll_fst_of_open (Bool.not_eq_true _ ▸ hc)]
      exact ⟨h1, fun _ => Or.inr rfl⟩
  | get name =>
    simp only [RegistryState.step]
    unfold RegistryState.get
    split
    · exact ⟨h1, h2⟩
    · next hc =>
      cases hm : lookupA name s.managed with
      | some m' => exact ⟨h1, h2⟩
      | none =>
        cases hq : lookupA name s.config.queues with
        | none => exact ⟨h1, h2⟩
        | some qc =>
          simp only
          by_cases hn : name = n
          · subst hn
            have hz : s.creations.count name = 0 := by
              rcases Nat.lt_or_ge (s.creations.count name) 1 with hlt | hge
              · omega
              · exfalso
                have h1' : s.creations.count name = 1 := le_antisymm h1 hge
                rcases h2 h1' with hs | hcl
                · rw [hm] at hs
                  exact Bool.noConfusion hs
                · exact hc hcl
            constructor
            · rw [List.count_append, hz]
              simp
            · intro _
              left
              rw [lookupA_append_of_none hm, lookupA_singleton_self]
              rfl
          · have hcount : (s.creations ++ [name]).count n = s.creations.count n := by
              rw [List.count_append, List.count_singleton']
              simp [hn]
            constructor
            · rw [hcount]; exact h1
            · intro hone
              rw [hcount] at hone
              rcases h2 hone with hs | hcl
              · left
                rcases Option.isSome_iff_exists.mp hs with ⟨v, hv⟩
                rw [lookupA_append_of_some hv]
                rfl
              · exact absurd hcl hc

theorem RegistryState.run_creations_inv {s : RegistryState} (n : String)
    (ops : List RegOp) (h1 : s.creations.count n ≤ 1)
    (h2 : s.creations.count n = 1 →
      ((lookupA n s.managed).isSome = true ∨ s.closed = true)) :
    (s.run ops).creations.count n ≤ 1 := by
  induction ops generalizing s with
  | nil => exact h1
  | cons op rest ih =>
    rcases RegistryState.step_creations_inv n op h1 h2 with ⟨h1', h2'⟩
    exact ih h1' h2'

/-- C1: for a configured name `n`, the first `get n` (after any earlier
`get` calls) yields a handle, and every later `get n` — after any
interleaved `get` calls for other names — yields the identical handle;
moreover across an arbitrary operation sequence the factory runs at most
once for `n` (exactly one creation event per name per registry
lifetime). -/
theorem registry_get_memoizes (cfg : GlideMQConfig) (n : String)
    (h : (lookupA n cfg.queues).isSome = true) (pre mid : List String)
    (ops : List RegOp) :
    (∃ m,
      ((((RegistryState.init cfg).runGets pre).get n).1 = .ok m) ∧
      ((((((RegistryState.init cfg).runGets pre).get n).2.runGets mid).get n).1 =
        .ok m)) ∧
    (((RegistryState.init cfg).run ops).creations.count n ≤ 1) := by
  constructor
  · rcases Option.isSome_iff_exists.mp h with ⟨qc, hq⟩
    have hc1 : ((RegistryState.init cfg).runGets pre).closed = false :=
      (RegistryState.init cfg).runGets_closed pre
    have hcfg1 : ((RegistryState.init cfg).runGets pre).config = cfg :=
      RegistryState.run_config _ _
    rcases RegistryState.get_of_configured hc1 (by rw [hcfg1]; exact hq) with
      ⟨m, hok, hmem⟩
    refine ⟨m, hok, ?_⟩
    have hc2 : ((((RegistryState.init cfg).runGets pre).get n).2).closed = false := by
      rw [RegistryState.get_snd_closed]; exact hc1
    have hc3 :
        (((((RegistryState.init cfg).runGets pre).get n).2).runGets mid).closed = false := by
      rw [RegistryState.runGets_closed]; exact hc2
    have hmem3 := RegistryState.runGets_managed_stable hmem mid
    rw [RegistryState.get_of_memo hc3 hmem3]
  · refine RegistryState.run_creations_inv n ops ?_ ?_
    · simp [RegistryState.init]
    · intro hone
      simp [RegistryState.init] at hone

/-- Witness for C1: the `emails` queue of a two-queue testing registry,
with a `reports` instantiation interleaved before and between the two
`get "emails"` calls. -/
theorem registry_get_memoizes_witness :
    ((lookupA "emails"
        ([("emails", (⟨false, none⟩ : QueueConfig)),
          ("reports", ⟨true, some 2⟩)])).isSome = true) ∧
    ((∃ m,
      ((((RegistryState.init
            ⟨none, [("emails", ⟨false, none⟩), ("reports", ⟨true, some 2⟩)], none,
              true⟩).runGets ["reports"]).get "emails").1 = .ok m) ∧
      ((((((RegistryState.init
            ⟨none, [("emails", ⟨false, none⟩), ("reports", ⟨true, some 2⟩)], none,
              true⟩).runGets ["reports"]).get "emails").2.runGets
                ["reports", "emails"]).get "emails").1 = .ok m)) ∧
    (((RegistryState.init
          ⟨none, [("emails", ⟨false, none⟩), ("reports", ⟨true, some 2⟩)], none,
            true⟩).run
        [RegOp.get "emails", RegOp.get "reports", RegOp.get "emails",
         RegOp.closeAll [], RegOp.get "emails"]).creations.count "emails" ≤ 1)) :=
  ⟨by decide,
   registry_get_memoizes
     ⟨none, [("emails", ⟨false, none⟩), ("reports", ⟨true, some 2⟩)], none, true⟩
     "emails" (by decide) ["reports"] ["reports", "emails"]
     [RegOp.get "emails", RegOp.get "reports", RegOp.get "emails",
      RegOp.closeAll [], RegOp.get "emails"]⟩

/-! ## Multiplexer lemmas and claims -/

theorem MuxState.step_refCount_pos {s : MuxState} (op : MuxOp)
    (h : ∀ e ∈ s.subs, 0 < e.2.refCount) :
    ∀ e ∈ (s.step op).subs, 0 < e.2.refCount := by
  cases op with
  | acquire name c p =>
    simp only [MuxState.step]
    unfold MuxState.acquire
    cases hm : lookupA name s.subs with
    | some sub =>
      simp only
      exact mem_updateA (P := fun v : EventSubscription => 0 < v.refCount) h (fun v hv => by
        have hlt : (0 : Int) < v.refCount + 1 := by omega
        simpa using hlt)
    | none =>
      simp only
      intro e he
      rcases List.mem_append.mp he with he | he
      · exact h e he
      · rcases List.mem_singleton.mp he with rfl
        norm_num
  | release name =>
    simp only [MuxState.step]
    unfold MuxState.release
    cases hm : lookupA name s.subs with
    | none => exact h
    | some sub =>
      simp only
      split
      · intro e he
        exact h e (mem_eraseA e he)
      · next hgt =>
        exact mem_updateA (P := fun v : EventSubscription => 0 < v.refCount) h (fun v hv => by
          have hlt : 0 < sub.refCount - 1 := by omega
          simpa using hlt)

theorem MuxState.run_refCount_pos (ops : List MuxOp) :
    ∀ e ∈ (MuxState.init.run ops).subs, 0 < e.2.refCount := by
  suffices hgen : ∀ (s : MuxState), (∀ e ∈ s.subs, 0 < e.2.refCount) →
      ∀ e ∈ (s.run ops).subs, 0 < e.2.refCount by
    exact hgen MuxState.init (by intro e he; exact absurd he (by simp [MuxState.init]))
  induction ops with
  | nil => intro s hs; exact hs
  | cons op rest ih =>
    intro s hs
    exact ih _ (s.step_refCount_pos op hs)

/-- C2: starting with no entry for `n`, two `acquire(n)` calls hand back
the same shared source and leave the entry's refCount at 2; two matching
`release(n)` calls close the underlying source exactly once and remove
the entry; a third `release(n)` changes nothing; and on every reachable
multiplexer state, no stored entry has refCount ≤ 0. -/
theorem mux_refcount_lifecycle (n : String) (c c2 : Nat) (p p2 : Option String)
    (ops : List MuxOp) :
    ((((MuxState.init.acquire n c p).2.acquire n c2 p2).1 =
        (MuxState.init.acquire n c p).1) ∧
     ((lookupA n ((MuxState.init.acquire n c p).2.acquire n c2 p2).2.subs).map
        (fun e => e.refCount) = some 2) ∧
     (((((MuxState.init.acquire n c p).2.acquire n c2 p2).2.release n).release
          n).closes = [(MuxState.init.acquire n c p).1.sourceId]) ∧
     (lookupA n
        (((((MuxState.init.acquire n c p).2.acquire n c2 p2).2.release n).release
            n)).subs = none) ∧
     ((((((MuxState.init.acquire n c p).2.acquire n c2 p2).2.release n).release
          n).release n) =
        ((((MuxState.init.acquire n c p).2.acquire n c2 p2).2.release n).release
          n)) ∧
     (∀ e ∈ (MuxState.init.run ops).subs, 0 < e.2.refCount)) := by
  refine ⟨?_, ?_, ?_, ?_, ?_, MuxState.run_refCount_pos ops⟩ <;>
    simp [MuxState.init, MuxState.acquire, MuxState.release, lookupA, updateA,
      eraseA]

/-- Witness for C2 at a concrete name, differing connection options for
the second acquire, and a concrete interleaved operation sequence. -/
theorem mux_refcount_lifecycle_witness :
    ((((MuxState.init.acquire "emails" 0 none).2.acquire "emails" 1
          (some "x")).1 = (MuxState.init.acquire "emails" 0 none).1) ∧
     ((lookupA "emails"
        ((MuxState.init.acquire "emails" 0 none).2.acquire "emails" 1
          (some "x")).2.subs).map (fun e => e.refCount) = some 2) ∧
     (((((MuxState.init.acquire "emails" 0 none).2.acquire "emails" 1
          (some "x")).2.release "emails").release "emails").closes =
        [(MuxState.init.acquire "emails" 0 none).1.sourceId]) ∧
     (lookupA "emails"
        (((((MuxState.init.acquire "emails" 0 none).2.acquire "emails" 1
          (some "x")).2.release "emails").release "emails")).subs = none) ∧
     ((((((MuxState.init.acquire "emails" 0 none).2.acquire "emails" 1
          (some "x")).2.release "emails").release "emails").release "emails") =
        ((((MuxState.init.acquire "emails" 0 none).2.acquire "emails" 1
          (some "x")).2.release "emails").release "emails")) ∧
     (∀ e ∈ (MuxState.init.run
        [MuxOp.acquire "emails" 0 none, MuxOp.acquire "reports" 3 none,
         MuxOp.release "emails", MuxOp.release "emails"]).subs,
        0 < e.2.refCount)) :=
  mux_refcount_lifecycle "emails" 0 1 none (some "x")
    [MuxOp.acquire "emails" 0 none, MuxOp.acquire "reports" 3 none,
     MuxOp.release "emails", MuxOp.release "emails"]

/-- C10: when an entry for `name` already exists, `acquire` returns that
entry's source and its outcome — returned source and successor state —
is the same for every value of the connection options and prefix
arguments; no new source identity is allocated and no close is issued,
so the returned source still carries the configuration of whoever
created it. -/
theorem acquire_ignores_opts_when_existing (s : MuxState) (name : String)
    (sub : EventSubscription) (h : lookupA name s.subs = some sub)
    (c c' : Nat) (p p' : Option String) :
    ((s.acquire name c p).1 = sub.queueEvents) ∧
    ((s.acquire name c p) = (s.acquire name c' p')) ∧
    ((s.acquire name c p).2.nextSource = s.nextSource) ∧
    ((s.acquire name c p).2.closes = s.closes) := by
  unfold MuxState.acquire
  rw [h]
  exact ⟨rfl, rfl, rfl, rfl⟩

/-- Witness for C10: the second acquire, with different connection
options and prefix, returns the source built from the first caller's
configuration. -/
theorem acquire_ignores_opts_when_existing_witness :
    (lookupA "emails" ((MuxState.init.acquire "emails" 7 none).2).subs =
      some ⟨⟨0, "emails", 7, none⟩, 1⟩) ∧
    ((((MuxState.init.acquire "emails" 7 none).2.acquire "emails" 9
        (some "pfx")).1 =
      (⟨⟨0, "emails", 7, none⟩, 1⟩ : EventSubscription).queueEvents) ∧
    (((MuxState.init.acquire "emails" 7 none).2.acquire "emails" 9 (some "pfx")) =
      ((MuxState.init.acquire "emails" 7 none).2.acquire "emails" 2 none)) ∧
    (((MuxState.init.acquire "emails" 7 none).2.acquire "emails" 9
        (some "pfx")).2.nextSource =
      ((MuxState.init.acquire "emails" 7 none).2).nextSource) ∧
    (((MuxState.init.acquire "emails" 7 none).2.acquire "emails" 9
        (some "pfx")).2.closes =
      ((MuxState.init.acquire "emails" 7 none).2).closes)) :=
  ⟨by decide,
   acquire_ignores_opts_when_existing (MuxState.init.acquire "emails" 7 none).2
     "emails" ⟨⟨0, "emails", 7, none⟩, 1⟩ (by decide) 9 2 (some "pfx") none⟩

theorem MuxState.release_of_some {s : MuxState} {name : String}
    {sub : EventSubscription} (h : lookupA name s.subs = some sub) :
    s.release name =
      if sub.refCount - 1 ≤ 0 then
        { s with subs := eraseA name s.subs,
                 closes := s.closes ++ [sub.queueEvents.sourceId] }
      else
        { s with
            subs := (updateA name (fun e => { e with refCount := sub.refCount - 1 }) s.subs) } := by
  unfold MuxState.release
  rw [h]

/-- C9: whatever way the live session's loop exits — inputs exhausted,
abort, a failed heartbeat write, or an error thrown inside the loop —
the `finally` path detaches exactly the listeners that were attached and
performs exactly one multiplexer release matching the session's acquire;
consequently a session against a fresh name leaves no entry behind and
closes its source exactly once, and a session against an existing entry
restores that entry's refCount. -/
theorem live_session_cleanup (mux : MuxState) (n : String) (c : Nat)
    (p : Option String) (inputs : List LiveInput) :
    ((runLiveSSE mux n c p inputs).1.detached =
      (runLiveSSE mux n c p inputs).1.attached) ∧
    ((runLiveSSE mux n c p inputs).2 = ((mux.acquire n c p).2.release n)) ∧
    (lookupA n mux.subs = none →
      (lookupA n (runLiveSSE mux n c p inputs).2.subs = none ∧
       (runLiveSSE mux n c p inputs).2.closes = mux.closes ++ [mux.nextSource])) ∧
    (∀ sub : EventSubscription, lookupA n mux.subs = some sub →
      0 < sub.refCount →
      (lookupA n (runLiveSSE mux n c p inputs).2.subs).map (fun e => e.refCount) =
        some sub.refCount) := by
  refine ⟨rfl, rfl, ?_, ?_⟩
  · intro hm
    have hsubs : (mux.acquire n c p).2.subs =
        mux.subs ++ [(n, ⟨⟨mux.nextSource, n, c, p⟩, 1⟩)] := by
      unfold MuxState.acquire
      rw [hm]
    have hcl : (mux.acquire n c p).2.closes = mux.closes := by
      unfold MuxState.acquire
      rw [hm]
    have hns : (⟨⟨mux.nextSource, n, c, p⟩, 1⟩ : EventSubscription).queueEvents.sourceId
        = mux.nextSource := rfl
    have hlook : lookupA n (mux.acquire n c p).2.subs =
        some ⟨⟨mux.nextSource, n, c, p⟩, 1⟩ := by
      rw [hsubs, lookupA_append_of_none hm, lookupA_singleton_self]
    constructor
    · show lookupA n ((mux.acquire n c p).2.release n).subs = none
      unfold MuxState.release
      rw [hlook]
      simp [lookupA_eraseA]
    · show ((mux.acquire n c p).2.release n).closes = mux.closes ++ [mux.nextSource]
      unfold MuxState.release
      rw [hlook]
      simp [hcl]
  · intro sub hm hpos
    have hsubs : (mux.acquire n c p).2.subs =
        updateA n (fun e => { e with refCount := e.refCount + 1 }) mux.subs := by
      unfold MuxState.acquire
      rw [hm]
    have hlook : lookupA n (mux.acquire n c p).2.subs =
        some { sub with refCount := sub.refCount + 1 } := by
      rw [hsubs, lookupA_updateA, hm]
      rfl
    show (lookupA n ((mux.acquire n c p).2.release n).subs).map
        (fun e => e.refCount) = some sub.refCount
    have hcond : ¬({ sub with refCount := sub.refCount + 1 } :
        EventSubscription).refCount - 1 ≤ 0 := by
      simp only
      omega
    rw [MuxState.release_of_some hlook, if_neg hcond]
    simp only [lookupA_updateA, hlook, Option.map_some']
    congr 1
    omega

/-- Witness for C9: one session on a fresh multiplexer whose loop exits
through an error thrown inside it, and one session over an existing
entry whose loop exits through a failed heartbeat write. -/
theorem live_session_cleanup_witness :
    ((lookupA "emails" MuxState.init.subs = none) ∧
     (lookupA "emails"
        (runLiveSSE MuxState.init "emails" 7 none
          [LiveInput.engine "completed", LiveInput.thrown]).2.subs = none ∧
      (runLiveSSE MuxState.init "emails" 7 none
          [LiveInput.engine "completed", LiveInput.thrown]).2.closes =
        MuxState.init.closes ++ [MuxState.init.nextSource])) ∧
    ((lookupA "emails" ((MuxState.init.acquire "emails" 7 none).2).subs =
        some ⟨⟨0, "emails", 7, none⟩, 1⟩) ∧
     (0 : Int) < (1 : Int) ∧
     ((lookupA "emails"
        (runLiveSSE (MuxState.init.acquire "emails" 7 none).2 "emails" 9 none
          [LiveInput.heartbeat false]).2.subs).map (fun e => e.refCount) =
        some (1 : Int))) :=
  ⟨⟨by decide,
    (live_session_cleanup MuxState.init "emails" 7 none
      [LiveInput.engine "completed", LiveInput.thrown]).2.2.1 (by decide)⟩,
   ⟨by decide, by decide,
    (live_session_cleanup (MuxState.init.acquire "emails" 7 none).2 "emails" 9 none
      [LiveInput.heartbeat false]).2.2.2 ⟨⟨0, "emails", 7, none⟩, 1⟩
      (by decide) (by decide)⟩⟩

/-! ## Polling-mode and frame-id claims -/

/-- C6 counterexample: a queue holding 3 waiting jobs when the polling
session opens produces a delta frame on the very first poll tick — the
baseline is the all-zero literal, not a read of the current counts, so
the claim's "no delta frames on the first poll tick" is false. -/
theorem polling_baseline_cex :
    (runTestingSSE "q" [some ⟨3, 0, 0, 0, 0⟩] =
      [⟨"q", "waiting", 3, 0, 0⟩]) ∧
    (runTestingSSE "q" [some ⟨3, 0, 0, 0, 0⟩] ≠ []) := by
  decide

theorem diffList_prev_zero (q : String) (l : List (String × Nat × Nat))
    (hl : ∀ t ∈ l, t.2.1 = 0) : ∀ eid : Nat, ∀ f ∈ (diffList q l eid).1, f.prev = 0 := by
  induction l with
  | nil => intro eid f hf; exact absurd hf (by simp [diffList])
  | cons t rest ih =>
    intro eid f hf
    obtain ⟨st, pv, cu⟩ := t
    have hrest : ∀ t ∈ rest, t.2.1 = 0 := fun t ht => hl t (List.mem_cons_of_mem _ ht)
    by_cases h : cu ≠ pv
    · simp only [diffList, if_pos h, List.mem_cons] at hf
      rcases hf with rfl | hf
      · have hz := hl (st, pv, cu) (List.mem_cons_self _ _)
        simpa using hz
      · exact ih hrest (eid + 1) f hf
    · simp only [diffList, if_neg h] at hf
      exact ih hrest eid f hf

theorem diffList_ne_nil (q : String) {l : List (String × Nat × Nat)}
    {t : String × Nat × Nat} (ht : t ∈ l) (hne : t.2.2 ≠ t.2.1) :
    ∀ eid : Nat, (diffList q l eid).1 ≠ [] := by
  induction l with
  | nil => exact absurd ht (List.not_mem_nil t)
  | cons u rest ih =>
    intro eid
    obtain ⟨st, pv, cu⟩ := u
    by_cases h : cu ≠ pv
    · simp [diffList, if_pos h]
    · rcases List.mem_cons.mp ht with he | htr
      · exact absurd (by rw [he] at hne; simpa using hne) h
      · simp only [diffList, if_neg h]
        exact ih htr eid

/-- C6 (amended): a polling session's baseline at open is the all-zero
counts literal, not a read of the current counts: the first poll tick
diffs the first successful read against zero, so every state nonzero at
open produces a delta frame with `prev = 0` on the first tick, and only
after that tick does the read become the baseline. -/
theorem polling_zero_baseline (q : String) (c : JobCounts)
    (rest : List (Option JobCounts)) :
    (runTestingSSE q (some c :: rest) =
      (diffFrames q JobCounts.zero c 0).1 ++
        pollLoop q c (diffFrames q JobCounts.zero c 0).2 rest) ∧
    (∀ f ∈ (diffFrames q JobCounts.zero c 0).1, f.prev = 0) ∧
    (c ≠ JobCounts.zero → (diffFrames q JobCounts.zero c 0).1 ≠ []) := by
  refine ⟨rfl, ?_, ?_⟩
  · intro f hf
    refine diffList_prev_zero q (stateEntries JobCounts.zero c) ?_ 0 f hf
    intro t ht
    simp only [stateEntries, JobCounts.zero, List.mem_cons, List.not_mem_nil,
      or_false] at ht
    rcases ht with rfl | rfl | rfl | rfl | rfl <;> rfl
  · intro hne
    obtain ⟨w, a, co, fl, d⟩ := c
    simp only [JobCounts.zero, ne_eq, JobCounts.mk.injEq] at hne
    push_neg at hne
    by_cases hw : w = 0
    · by_cases ha : a = 0
      · by_cases hco : co = 0
        · by_cases hfl : fl = 0
          · exact diffList_ne_nil q
              (l := stateEntries JobCounts.zero ⟨w, a, co, fl, d⟩)
              (t := ("delayed", 0, d)) (by simp [stateEntries, JobCounts.zero])
              (by simpa using hne hw ha hco hfl) 0
          · exact diffList_ne_nil q
              (l := stateEntries JobCounts.zero ⟨w, a, co, fl, d⟩)
              (t := ("failed", 0, fl)) (by simp [stateEntries, JobCounts.zero])
              (by simpa using hfl) 0
        · exact diffList_ne_nil q
            (l := stateEntries JobCounts.zero ⟨w, a, co, fl, d⟩)
            (t := ("completed", 0, co)) (by simp [stateEntries, JobCounts.zero])
            (by simpa using hco) 0
      · exact diffList_ne_nil q
          (l := stateEntries JobCounts.zero ⟨w, a, co, fl, d⟩)
          (t := ("active", 0, a)) (by simp [stateEntries, JobCounts.zero])
          (by simpa using ha) 0
    · exact diffList_ne_nil q
        (l := stateEntries JobCounts.zero ⟨w, a, co, fl, d⟩)
        (t := ("waiting", 0, w)) (by simp [stateEntries, JobCounts.zero])
        (by simpa using hw) 0

/-- Witness for the amended C6: two states nonzero at session open. -/
theorem polling_zero_baseline_witness :
    ((runTestingSSE "q" [some ⟨2, 0, 0, 1, 0⟩] =
      (diffFrames "q" JobCounts.zero ⟨2, 0, 0, 1, 0⟩ 0).1 ++
        pollLoop "q" ⟨2, 0, 0, 1, 0⟩
          (diffFrames "q" JobCounts.zero ⟨2, 0, 0, 1, 0⟩ 0).2 []) ∧
    (∀ f ∈ (diffFrames "q" JobCounts.zero ⟨2, 0, 0, 1, 0⟩ 0).1, f.prev = 0) ∧
    ((⟨2, 0, 0, 1, 0⟩ : JobCounts) ≠ JobCounts.zero →
      (diffFrames "q" JobCounts.zero ⟨2, 0, 0, 1, 0⟩ 0).1 ≠ [])) :=
  polling_zero_baseline "q" ⟨2, 0, 0, 1, 0⟩ []

/-- C7: on every poll tick the loop emits the diff frames and then
replaces the baseline wholesale with the freshly read counts (all
states, however many frames were emitted); a tick whose read equals the
baseline emits no frame; a read differing from the baseline in exactly
one state field emits exactly one frame carrying the queue name, the
state, the new count and the previous count, consuming exactly one id. -/
theorem polling_tick_deltas (q : String) (b c : JobCounts) (eid : Nat)
    (rest : List (Option JobCounts)) (w a co fl d : Nat) :
    (pollLoop q b eid (some c :: rest) =
      (diffFrames q b c eid).1 ++ pollLoop q c (diffFrames q b c eid).2 rest) ∧
    (c = b → (diffFrames q b c eid).1 = []) ∧
    (w ≠ b.waiting →
      diffFrames q b { b with waiting := w } eid =
        ([⟨q, "waiting", w, b.waiting, eid⟩], eid + 1)) ∧
    (a ≠ b.active →
      diffFrames q b { b with active := a } eid =
        ([⟨q, "active", a, b.active, eid⟩], eid + 1)) ∧
    (co ≠ b.completed →
      diffFrames q b { b with completed := co } eid =
        ([⟨q, "completed", co, b.completed, eid⟩], eid + 1)) ∧
    (fl ≠ b.failed →
      diffFrames q b { b with failed := fl } eid =
        ([⟨q, "failed", fl, b.failed, eid⟩], eid + 1)) ∧
    (d ≠ b.delayed →
      diffFrames q b { b with delayed := d } eid =
        ([⟨q, "delayed", d, b.delayed, eid⟩], eid + 1)) := by
  obtain ⟨bw, ba, bc, bf, bd⟩ := b
  refine ⟨rfl, ?_, ?_, ?_, ?_, ?_, ?_⟩ <;> intro h <;>
    simp_all [diffFrames, stateEntries, diffList]

/-- Witness for C7: a steady tick and each single-field change at
concrete counts. -/
theorem polling_tick_deltas_witness :
    ((pollLoop "q" ⟨1, 2, 3, 4, 5⟩ 6 [some ⟨1, 2, 3, 4, 5⟩] =
      (diffFrames "q" ⟨1, 2, 3, 4, 5⟩ ⟨1, 2, 3, 4, 5⟩ 6).1 ++
        pollLoop "q" ⟨1, 2, 3, 4, 5⟩
          (diffFrames "q" ⟨1, 2, 3, 4, 5⟩ ⟨1, 2, 3, 4, 5⟩ 6).2 []) ∧
    ((⟨1, 2, 3, 4, 5⟩ : JobCounts) = ⟨1, 2, 3, 4, 5⟩ →
      (diffFrames "q" ⟨1, 2, 3, 4, 5⟩ ⟨1, 2, 3, 4, 5⟩ 6).1 = []) ∧
    ((9 : Nat) ≠ (⟨1, 2, 3, 4, 5⟩ : JobCounts).waiting →
      diffFrames "q" ⟨1, 2, 3, 4, 5⟩
          { (⟨1, 2, 3, 4, 5⟩ : JobCounts) with waiting := 9 } 6 =
        ([⟨"q", "waiting", 9, (⟨1, 2, 3, 4, 5⟩ : JobCounts).waiting, 6⟩], 7)) ∧
    ((9 : Nat) ≠ (⟨1, 2, 3, 4, 5⟩ : JobCounts).active →
      diffFrames "q" ⟨1, 2, 3, 4, 5⟩
          { (⟨1, 2, 3, 4, 5⟩ : JobCounts) with active := 9 } 6 =
        ([⟨"q", "active", 9, (⟨1, 2, 3, 4, 5⟩ : JobCounts).active, 6⟩], 7)) ∧
    ((9 : Nat) ≠ (⟨1, 2, 3, 4, 5⟩ : JobCounts).completed →
      diffFrames "q" ⟨1, 2, 3, 4, 5⟩
          { (⟨1, 2, 3, 4, 5⟩ : JobCounts) with completed := 9 } 6 =
        ([⟨"q", "completed", 9, (⟨1, 2, 3, 4, 5⟩ : JobCounts).completed, 6⟩], 7)) ∧
    ((9 : Nat) ≠ (⟨1, 2, 3, 4, 5⟩ : JobCounts).failed →
      diffFrames "q" ⟨1, 2, 3, 4, 5⟩
          { (⟨1, 2, 3, 4, 5⟩ : JobCounts) with failed := 9 } 6 =
        ([⟨"q", "failed", 9, (⟨1, 2, 3, 4, 5⟩ : JobCounts).failed, 6⟩], 7)) ∧
    ((9 : Nat) ≠ (⟨1, 2, 3, 4, 5⟩ : JobCounts).delayed →
      diffFrames "q" ⟨1, 2, 3, 4, 5⟩
          { (⟨1, 2, 3, 4, 5⟩ : JobCounts) with delayed := 9 } 6 =
        ([⟨"q", "delayed", 9, (⟨1, 2, 3, 4, 5⟩ : JobCounts).delayed, 6⟩], 7))) :=
  polling_tick_deltas "q" ⟨1, 2, 3, 4, 5⟩ ⟨1, 2, 3, 4, 5⟩ 6 [] 9 9 9 9 9

theorem liveLoop_ids (inputs : List LiveInput) : ∀ eid : Nat,
    (liveLoop eid inputs).1.map Frame.id =
      List.range' eid (liveLoop eid inputs).1.length := by
  induction inputs with
  | nil => intro eid; rfl
  | cons i rest ih =>
    intro eid
    cases i with
    | engine ev =>
      simp only [liveLoop, List.map_cons, List.length_cons, ih (eid + 1),
        List.range'_succ]
    | heartbeat ok =>
      cases ok with
      | true =>
        simp only [liveLoop, List.map_cons, List.length_cons, ih (eid + 1),
          List.range'_succ]
      | false => rfl
    | abort => rfl
    | thrown => rfl

theorem diffList_ids (q : String) (l : List (String × Nat × Nat)) : ∀ eid : Nat,
    ((diffList q l eid).1.map CountsFrame.id =
      List.range' eid (diffList q l eid).1.length) ∧
    ((diffList q l eid).2 = eid + (diffList q l eid).1.length) := by
  induction l with
  | nil => intro eid; exact ⟨rfl, rfl⟩
  | cons t rest ih =>
    intro eid
    obtain ⟨st, pv, cu⟩ := t
    by_cases h : cu ≠ pv
    · constructor
      · simp only [diffList, if_pos h, List.map_cons, List.length_cons,
          (ih (eid + 1)).1, List.range'_succ]
      · simp only [diffList, if_pos h, List.length_cons]
        rw [(ih (eid + 1)).2]
        omega
    · simpa only [diffList, if_neg h] using ih eid

theorem pollLoop_ids (q : String) (reads : List (Option JobCounts)) :
    ∀ (b : JobCounts) (eid : Nat),
    (pollLoop q b eid reads).map CountsFrame.id =
      List.range' eid (pollLoop q b eid reads).length := by
  induction reads with
  | nil => intro b eid; rfl
  | cons r rest ih =>
    intro b eid
    cases r with
    | none => rfl
    | some c =>
      have h1 := (diffList_ids q (stateEntries b c) eid).1
      have h2 := (diffList_ids q (stateEntries b c) eid).2
      simp only [pollLoop, diffFrames, List.map_append, List.length_append,
        h1, h2, ih c]
      rw [List.range'_append_1]
      congr 1
      omega

/-- C8: every frame a session writes carries the next value of the
session-local counter: over any live-session history the emitted ids are
exactly `0, 1, 2, ...` in emission order, heartbeat frames drawing from
the same counter as forwarded event frames; a polling session's `counts`
frames carry the same contiguous ids; and a session's frames do not
depend on the shared multiplexer state, so concurrent sessions' counters
are independent of one another. -/
theorem frame_ids_contiguous (mux mux' : MuxState) (n n' : String) (c c' : Nat)
    (p p' : Option String) (inputs : List LiveInput) (q : String)
    (reads : List (Option JobCounts)) :
    ((runLiveSSE mux n c p inputs).1.frames.map Frame.id =
      List.range (runLiveSSE mux n c p inputs).1.frames.length) ∧
    ((runLiveSSE mux n c p inputs).1.frames =
      (runLiveSSE mux' n' c' p' inputs).1.frames) ∧
    ((runTestingSSE q reads).map CountsFrame.id =
      List.range (runTestingSSE q reads).length) := by
  refine ⟨?_, rfl, ?_⟩
  · rw [List.range_eq_range']
    exact liveLoop_ids inputs 0
  · rw [List.range_eq_range']
    exact pollLoop_ids q reads JobCounts.zero 0
